import Mathlib

/-!
Verification of the procedural lip-sync and viseme-blending engine of the
vox-visage repository.

The definitions below are a shallow embedding of the TypeScript sources:

* `LipSyncAnimator` state, `setSpeaking` and `update` follow the class
  `LipSyncAnimator` in the lip-sync module (viseme names, speech-pattern
  library, scheduler, exponential weight blender).
* `computeRMS`, `smoothStep`, `scaleAmplitude` and the `MicState` event
  machine follow the microphone capture code of `avatarController.ts`
  (`computeRMS`, `startMic`, `stopMic`, and the amplitude computation in
  `update`).
* The rig-capability resolver (`morphs`, `findJaw`, `tier`) and the
  mouth-write fragment `updateMouth` follow the morph/bone collection and
  the mouth branches of `update` in `avatarController.ts`.

Machine floats are modelled by real numbers; `Math.random()` draws are
passed in as explicit real parameters in `[0,1)`; the asynchronous
`getUserMedia` call is modelled by begin/resolve events.
-/

/-- The 15 Ready Player Me viseme morph target names (`VISEME_NAMES`). -/
def VISEME_NAMES : List String :=
  ["viseme_sil", "viseme_PP", "viseme_FF", "viseme_TH", "viseme_DD",
   "viseme_kk", "viseme_CH", "viseme_SS", "viseme_nn", "viseme_RR",
   "viseme_aa", "viseme_E", "viseme_I", "viseme_O", "viseme_U"]

/-- The fixed pattern library `SPEECH_PATTERNS`: each step is
(viseme index, duration in ms). -/
def SPEECH_PATTERNS : List (List (Nat × Nat)) :=
  [[(10, 120), (1, 80), (11, 100), (4, 70), (13, 130), (0, 60)],
   [(7, 90), (12, 110), (8, 80), (10, 120), (6, 70), (0, 50)],
   [(10, 140), (13, 120), (14, 100), (11, 130), (12, 110), (0, 70)],
   [(1, 70), (10, 120), (5, 80), (11, 110), (4, 70), (13, 100), (0, 60)],
   [(8, 90), (10, 130), (9, 80), (12, 100), (8, 70), (14, 110), (0, 50)]]

/-- `this.smoothing = 0.15` of `LipSyncAnimator`. -/
noncomputable def smoothing : ℝ := 0.15

/-- One blender step for one channel (`update`, lines 310-313):
`current += (target - current) * smoothing;
 if (current < 0.001) current = 0`. -/
noncomputable def blendStep (s t c : ℝ) : ℝ :=
  let c2 := c + (t - c) * s
  if c2 < 0.001 then 0 else c2

/-- Mutable state of `LipSyncAnimator`.  The class field `currentPattern`
always equals `SPEECH_PATTERNS[patternIndex]` (the two are assigned
together), so it is derived via `currentPattern` below instead of stored. -/
structure AnimatorState where
  isSpeaking : Bool
  patternIndex : Nat
  stepIndex : Nat
  stepStartTime : ℝ
  targetWeights : List ℝ
  currentWeights : List ℝ

/-- The active pattern, `SPEECH_PATTERNS[this.patternIndex]`. -/
def currentPattern (st : AnimatorState) : List (Nat × Nat) :=
  SPEECH_PATTERNS.getD st.patternIndex []

/-- `Math.floor(Math.random() * SPEECH_PATTERNS.length)` for a draw
`r ∈ [0,1)`. -/
noncomputable def randIndex (r : ℝ) : Nat :=
  (⌊r * (SPEECH_PATTERNS.length : ℝ)⌋).toNat

/-- Initial animator state (all weights zero, pattern 0, step 0). -/
def initAnimator : AnimatorState :=
  { isSpeaking := false
    patternIndex := 0
    stepIndex := 0
    stepStartTime := 0
    targetWeights := List.replicate VISEME_NAMES.length 0
    currentWeights := List.replicate VISEME_NAMES.length 0 }

/-- `LipSyncAnimator.setSpeaking(speaking)`; `r` is the `Math.random()`
draw and `now` is `performance.now()`. -/
noncomputable def LipSyncAnimator.setSpeaking
    (speaking : Bool) (r now : ℝ) (st : AnimatorState) : AnimatorState :=
  let st1 :=
    if speaking && !st.isSpeaking then
      { st with patternIndex := randIndex r, stepIndex := 0, stepStartTime := now }
    else st
  let st2 := { st1 with isSpeaking := speaking }
  if speaking then st2
  else { st2 with targetWeights := st2.targetWeights.map (fun _ => 0) }

/-- The current step,
`const [visemeIdx, durationMs] = this.currentPattern[this.stepIndex]`. -/
def schedStep (st : AnimatorState) : Nat × Nat :=
  (currentPattern st).getD st.stepIndex (0, 0)

/-- `progress = Math.min(elapsed / durationMs, 1)` (`update`, line 286). -/
noncomputable def schedProgress (now : ℝ) (st : AnimatorState) : ℝ :=
  min ((now - st.stepStartTime) / ((schedStep st).2 : ℝ)) 1

/-- `intensity = Math.sin(progress * Math.PI) * (0.6 + Math.random() * 0.35)`
(`update`, line 288), with the draw `rI ∈ [0,1)` passed explicitly. -/
noncomputable def schedIntensity (now rI : ℝ) (st : AnimatorState) : ℝ :=
  Real.sin (schedProgress now st * Real.pi) * (0.6 + rI * 0.35)

/-- The target vector written by the speaking branch (`update`, lines
283-294): zero everything, set the step's viseme to `intensity`, and for a
step that is neither silence (0) nor `viseme_aa` (10) also set channel 10
to `intensity * 0.2`. -/
noncomputable def schedTargets (now rI : ℝ) (st : AnimatorState) : List ℝ :=
  let tw0 := (st.targetWeights.map (fun _ => (0 : ℝ))).set (schedStep st).1
    (schedIntensity now rI st)
  if (schedStep st).1 ≠ 0 ∧ (schedStep st).1 ≠ 10 then
    tw0.set 10 (schedIntensity now rI st * 0.2)
  else tw0

/-- The speaking branch of `LipSyncAnimator.update` (lines 278-306): write
the scheduled targets and, when `elapsed >= durationMs`, advance the step
(re-randomizing the pattern via the draw `rP` when the pattern is
exhausted) and reset the step start time to `now`. -/
noncomputable def updateSpeaking (now rI rP : ℝ) (st : AnimatorState) : AnimatorState :=
  if ((schedStep st).2 : ℝ) ≤ now - st.stepStartTime then
    if (currentPattern st).length ≤ st.stepIndex + 1 then
      { st with targetWeights := schedTargets now rI st, patternIndex := randIndex rP,
                stepIndex := 0, stepStartTime := now }
    else
      { st with targetWeights := schedTargets now rI st,
                stepIndex := st.stepIndex + 1, stepStartTime := now }
  else { st with targetWeights := schedTargets now rI st }

/-- `LipSyncAnimator.update()`: scheduler (when speaking) followed by the
per-channel exponential blend of `currentWeights` toward `targetWeights`. -/
noncomputable def LipSyncAnimator.update (now rI rP : ℝ) (st : AnimatorState) : AnimatorState :=
  let st1 := if st.isSpeaking then updateSpeaking now rI rP st else st
  { st1 with currentWeights :=
      List.zipWith (blendStep smoothing) st1.targetWeights st1.currentWeights }

/-- `n` blender ticks of one channel with target 0 (the post-capture-stop
decay): iterate `blendStep s 0` starting from `c`. -/
noncomputable def decayN (s c : ℝ) : Nat → ℝ
  | 0 => c
  | n + 1 => blendStep s 0 (decayN s c n)

/-- A whole blender pass (`update`, lines 310-314) over the target and
current vectors. -/
noncomputable def blendAll (target current : List ℝ) : List ℝ :=
  List.zipWith (blendStep smoothing) target current

/-- Run the blender from the all-zero initial `currentWeights` over a
sequence of per-tick target vectors. -/
noncomputable def blendRun (targets : List (List ℝ)) : List ℝ :=
  targets.foldl (fun cur t => blendAll t cur) (List.replicate VISEME_NAMES.length 0)

/-! ## Microphone amplitude extractor (`avatarController.ts`) -/

/-- `const v = (buf[i] - 128) / 128`: centre a byte sample around 128 and
scale it to `[-1,1)`. -/
noncomputable def sampleV (b : Nat) : ℝ :=
  ((b : ℝ) - 128) / 128

/-- `computeRMS(buf)`: sum the squares of the centred samples and take the
square root of their mean. -/
noncomputable def computeRMS (buf : List Nat) : ℝ :=
  Real.sqrt ((buf.map (fun b => sampleV b * sampleV b)).sum / buf.length)

/-- `opts.micSmoothing ?? 0.12`. -/
noncomputable def micSmoothing : ℝ := 0.12

/-- `smoothed = smoothed * (1 - micSmoothing) + r * micSmoothing`
(`update`, line 181). -/
noncomputable def smoothStep (smoothed r : ℝ) : ℝ :=
  smoothed * (1 - micSmoothing) + r * micSmoothing

/-- `rms = Math.min(1, smoothed * micGain * 3.5)` (`update`, line 182). -/
noncomputable def scaleAmplitude (gain smoothed : ℝ) : ℝ :=
  min 1 (smoothed * gain * 3.5)

/-- The amplitude value used by `update`: it is initialised to 0 and only
recomputed when `micEnabled && analyser` holds, so with the microphone off
it stays 0. -/
noncomputable def tickAmplitude (micOn hasAnalyser : Bool) (gain smoothed : ℝ)
    (buf : List Nat) : ℝ :=
  if micOn && hasAnalyser then scaleAmplitude gain (smoothStep smoothed (computeRMS buf))
  else 0

/-! ## Microphone capture state machine

`startMic` is asynchronous: it checks `micEnabled`, `await`s
`getUserMedia`, and only then installs the stream and sets `micEnabled`.
This is modelled by a `startBegin` event (the guard and the issue of the
`getUserMedia` request) and `resolveOk`/`resolveFail` events (the
resolution of the oldest outstanding request).  `stop` is `stopMic`.
`opened` counts the streams `getUserMedia` has delivered. -/

structure MicState where
  micEnabled : Bool
  micStream : Option Nat
  audioCtx : Option Nat
  analyser : Option Nat
  sourceNode : Option Nat
  smoothed : ℝ
  pending : Nat
  opened : Nat

inductive MicEvent
  | startBegin
  | resolveOk
  | resolveFail
  | stop

/-- One event of the capture machine, after `startMic`/`stopMic`. -/
def applyEvent (st : MicState) (e : MicEvent) : MicState :=
  match e with
  | .startBegin =>
      if st.micEnabled then st else { st with pending := st.pending + 1 }
  | .resolveOk =>
      if st.pending = 0 then st
      else
        { st with pending := st.pending - 1,
                  micStream := some st.opened,
                  audioCtx := some st.opened,
                  analyser := some st.opened,
                  sourceNode := some st.opened,
                  opened := st.opened + 1,
                  micEnabled := true }
  | .resolveFail =>
      if st.pending = 0 then st else { st with pending := st.pending - 1 }
  | .stop =>
      if st.micEnabled then
        { st with micEnabled := false,
                  micStream := none, audioCtx := none,
                  analyser := none, sourceNode := none,
                  smoothed := 0 }
      else st

def runEvents (st : MicState) (es : List MicEvent) : MicState :=
  es.foldl applyEvent st

/-- Initial capture state of a fresh controller. -/
def initMic : MicState :=
  { micEnabled := false, micStream := none, audioCtx := none,
    analyser := none, sourceNode := none, smoothed := 0,
    pending := 0, opened := 0 }

/-! ## Rig capability resolver (`avatarController.ts`, construction) -/

/-- Does the second character list begin with the first? -/
def charsBeginWith : List Char → List Char → Bool
  | [], _ => true
  | _ :: _, [] => false
  | a :: as, b :: bs => a == b && charsBeginWith as bs

/-- Does the needle occur somewhere in the haystack? -/
def charsOccurIn (needle : List Char) : List Char → Bool
  | [] => charsBeginWith needle []
  | b :: bs => charsBeginWith needle (b :: bs) || charsOccurIn needle bs

/-- `s.includes(sub)` on the underlying character lists. -/
def strContains (s sub : String) : Bool :=
  charsOccurIn sub.data s.data

/-- `name.toLowerCase()` for the basic-latin names a rig uses. -/
def lowerStr (s : String) : String :=
  ⟨s.data.map Char.toLower⟩

/-- `opts.mouthMorphCandidates` default. -/
def mouthMorphCandidates : List String :=
  ["v_mouthOpen", "mouthOpen", "MouthOpen", "Aa", "open", "jawOpen"]

/-- `opts.jawBoneNames` default. -/
def jawBoneNames : List String :=
  ["Jaw", "jaw", "mixamorig:Jaw", "Head_Jaw"]

/-- The heuristic pass over a morph dictionary entry: the lower-cased name
contains one of the mouth/jaw/aa/open substrings. -/
def heuristicMatch (nm : String) : Bool :=
  let low := lowerStr nm
  strContains low ("mouth") || strContains low ("jaw") ||
  strContains low ("aa") || strContains low ("open")

/-- A mesh as seen by the resolver: its morph-target dictionary,
name-to-slot. -/
structure RigMesh where
  morphDict : List (String × Nat)

/-- A rig: its meshes and its bone names. -/
structure Rig where
  meshes : List RigMesh
  bones : List String

/-- The morph candidates one mesh contributes: first the exact candidate
names present in the dictionary, then every dictionary entry whose
lower-cased name matches the heuristic substrings. -/
def meshMorphs (m : RigMesh) : List (String × Nat) :=
  (mouthMorphCandidates.filterMap
    (fun c => (m.morphDict.lookup c).map (fun i => (c, i))))
  ++ m.morphDict.filter (fun p => heuristicMatch p.1)

/-- The controller's `morphs` array: all candidates over all meshes. -/
def morphs (r : Rig) : List (String × Nat) :=
  (r.meshes.map meshMorphs).flatten

/-- The controller's `jawBone`: the last bone whose lower-cased name
contains one of the (lower-cased) jaw bone names, if any. -/
def findJaw (r : Rig) : Option String :=
  r.bones.foldl
    (fun acc b =>
      if jawBoneNames.any (fun jn => strContains (lowerStr b) (lowerStr jn)) then some b
      else acc)
    none

/-- Modelled from the spec: the derived rig Tier of section 3 / 4.1.  The
code never names a tier; it only keeps the collected `morphs` list and the
optional `jawBone`, which this classification summarises. -/
inductive Tier
  | FullViseme
  | JawBoneFallback
  | None
deriving DecidableEq

/-- Modelled from the spec: `FullViseme` when at least one canonical or
heuristic morph channel was collected, else `JawBoneFallback` when a jaw
bone was found, else `None`. -/
def tier (r : Rig) : Tier :=
  if morphs r ≠ [] then .FullViseme
  else if (findJaw r).isSome then .JawBoneFallback
  else .None

/-! ## Mouth writes of `avatarController.update` -/

/-- `THREE.MathUtils.lerp(x, y, t) = x + (y - x) * t`. -/
noncomputable def lerp (a b t : ℝ) : ℝ := a + (b - a) * t

/-- The mouth output slots the controller can write: morph-target
influence slots and the jaw-bone `rotation.x`. -/
structure MouthOut where
  influences : List ℝ
  jawRot : ℝ

/-- The morph loop bodies of `update`: write
`lerp(current influence, v, t)` into each collected slot. -/
noncomputable def writeMorphsToward (idxs : List Nat) (v t : ℝ)
    (infl : List ℝ) : List ℝ :=
  idxs.foldl (fun acc i => acc.set i (lerp (acc.getD i 0) v t)) infl

/-- The mouth-write fragment of `update` (lines 177-207), with no
`lipSync` animator attached: with the microphone on, lerp the morph slots
toward `rms` (factor `morphSmooth = 0.12`) or the jaw rotation toward
`-0.45 * rms` (factor 0.18); with it off, relax the morph slots toward 0
(factor 0.08) or the jaw rotation toward 0 (factor 0.06). -/
noncomputable def updateMouth (micOn : Bool) (morphIdxs : List Nat) (jaw : Bool)
    (rms : ℝ) (out : MouthOut) : MouthOut :=
  if micOn then
    if morphIdxs ≠ [] then
      { out with influences := writeMorphsToward morphIdxs rms 0.12 out.influences }
    else if jaw then
      { out with jawRot := lerp out.jawRot (-0.45 * rms) 0.18 }
    else out
  else
    if morphIdxs ≠ [] then
      { out with influences := writeMorphsToward morphIdxs 0 0.08 out.influences }
    else if jaw then
      { out with jawRot := lerp out.jawRot 0 0.06 }
    else out

/-- A maximal-swing alternating buffer: `n` repetitions of the byte pair
`0, 255`. -/
def altBuf (n : Nat) : List Nat :=
  (List.replicate n [0, 255]).flatten

/-! ## Helper lemmas -/

theorem smoothing_nonneg : 0 ≤ smoothing := by norm_num [smoothing]

theorem smoothing_le_one : smoothing ≤ 1 := by norm_num [smoothing]

theorem blendStep_mem_unit (s t c : ℝ) (hs0 : 0 ≤ s) (hs1 : s ≤ 1)
    (ht0 : 0 ≤ t) (ht1 : t ≤ 1) (hc0 : 0 ≤ c) (hc1 : c ≤ 1) :
    0 ≤ blendStep s t c ∧ blendStep s t c ≤ 1 := by
  have h0 : 0 ≤ c + (t - c) * s := by
    nlinarith [mul_nonneg hc0 (sub_nonneg.2 hs1), mul_nonneg ht0 hs0]
  have h1 : c + (t - c) * s ≤ 1 := by
    nlinarith [mul_nonneg (sub_nonneg.2 hc1) (sub_nonneg.2 hs1),
      mul_nonneg (sub_nonneg.2 ht1) hs0]
  simp only [blendStep]
  split
  · constructor <;> norm_num
  · exact ⟨h0, h1⟩

theorem blendAll_mem_unit (t : List ℝ) :
    ∀ (c : List ℝ), (∀ x ∈ t, 0 ≤ x ∧ x ≤ 1) → (∀ x ∈ c, 0 ≤ x ∧ x ≤ 1) →
      ∀ w ∈ blendAll t c, 0 ≤ w ∧ w ≤ 1 := by
  induction t with
  | nil => intro c _ _ w hw; simp [blendAll] at hw
  | cons a t ih =>
    intro c ht hc w hw
    cases c with
    | nil => simp [blendAll] at hw
    | cons b c =>
      simp only [blendAll, List.zipWith_cons_cons, List.mem_cons] at hw
      rcases hw with h | h
      · subst h
        exact blendStep_mem_unit smoothing a b smoothing_nonneg smoothing_le_one
          (ht a (by simp)).1 (ht a (by simp)).2 (hc b (by simp)).1 (hc b (by simp)).2
      · exact ih c (fun x hx => ht x (by simp [hx])) (fun x hx => hc x (by simp [hx])) w h

theorem blendFold_mem_unit (targets : List (List ℝ)) :
    ∀ (cur : List ℝ), (∀ t ∈ targets, ∀ x ∈ t, 0 ≤ x ∧ x ≤ 1) →
      (∀ x ∈ cur, 0 ≤ x ∧ x ≤ 1) →
      ∀ w ∈ targets.foldl (fun cur t => blendAll t cur) cur, 0 ≤ w ∧ w ≤ 1 := by
  induction targets with
  | nil => intro cur _ hcur; simpa using hcur
  | cons t ts ih =>
    intro cur hts hcur
    simp only [List.foldl_cons]
    exact ih _ (fun t' ht' => hts t' (by simp [ht']))
      (blendAll_mem_unit t cur (hts t (by simp)) hcur)

/-! ## C1 -/

/-- C1: starting from the all-zero current weights, over any sequence of
ticks whose scheduler-set target vectors have all entries in `[0,1]`, every
blended current weight stays in `[0,1]`. -/
theorem C1_current_weights_in_unit_interval (targets : List (List ℝ))
    (h : ∀ t ∈ targets, ∀ x ∈ t, 0 ≤ x ∧ x ≤ 1) :
    ∀ w ∈ blendRun targets, 0 ≤ w ∧ w ≤ 1 := by
  unfold blendRun
  refine blendFold_mem_unit targets _ h ?_
  intro x hx
  rw [List.eq_of_mem_replicate hx]
  norm_num

theorem getD_mem_of_lt (l : List ℝ) (n : Nat) (h : n < l.length) :
    l.getD n 0 ∈ l := by
  rw [List.getD_eq_getElem _ _ h]
  exact List.getElem_mem h

/-- Witness for C1 at a concrete tick sequence: one tick whose target
vector sets every channel to 1/2; channel 0 of the result is in `[0,1]`. -/
theorem C1_witness :
    0 ≤ (blendRun [List.replicate VISEME_NAMES.length (1/2 : ℝ)]).getD 0 0
    ∧ (blendRun [List.replicate VISEME_NAMES.length (1/2 : ℝ)]).getD 0 0 ≤ 1 := by
  have hmem : (blendRun [List.replicate VISEME_NAMES.length (1/2 : ℝ)]).getD 0 0
      ∈ blendRun [List.replicate VISEME_NAMES.length (1/2 : ℝ)] := by
    apply getD_mem_of_lt
    show 0 < (blendAll (List.replicate VISEME_NAMES.length (1/2 : ℝ))
      (List.replicate VISEME_NAMES.length 0)).length
    simp [blendAll]
    decide
  refine C1_current_weights_in_unit_interval _ ?_ _ hmem
  intro t ht x hx
  simp only [List.mem_singleton] at ht
  subst ht
  rw [List.eq_of_mem_replicate hx]
  norm_num

/-! ## C2: convergence of the blender after capture stop -/

theorem decayN_nonneg (s c : ℝ) (hs1 : s ≤ 1) (hc : 0 ≤ c) :
    ∀ n, 0 ≤ decayN s c n := by
  intro n
  induction n with
  | zero => exact hc
  | succ n ih =>
    show 0 ≤ blendStep s 0 (decayN s c n)
    simp only [blendStep]
    split
    · exact le_refl 0
    · nlinarith [mul_nonneg ih (sub_nonneg.2 hs1)]

theorem decayN_le_pow (s c : ℝ) (hs0 : 0 ≤ s) (hs1 : s ≤ 1) (hc : 0 ≤ c) :
    ∀ n, decayN s c n ≤ c * (1 - s) ^ n := by
  intro n
  induction n with
  | zero => simp only [decayN, pow_zero, mul_one]; exact le_refl c
  | succ n ih =>
    have hd := decayN_nonneg s c hs1 hc n
    have step : blendStep s 0 (decayN s c n) ≤ decayN s c n * (1 - s) := by
      simp only [blendStep]
      split
      · nlinarith [mul_nonneg hd (sub_nonneg.2 hs1)]
      · nlinarith
    calc decayN s c (n + 1) = blendStep s 0 (decayN s c n) := rfl
      _ ≤ decayN s c n * (1 - s) := step
      _ ≤ c * (1 - s) ^ n * (1 - s) :=
          mul_le_mul_of_nonneg_right ih (by linarith)
      _ = c * (1 - s) ^ (n + 1) := by ring

theorem pow_bound_of_ceil_le (s c ε : ℝ) (N : Nat) (hs0 : 0 < s) (hs1 : s < 1)
    (hc : 0 < c) (hε : 0 < ε)
    (hN : ⌈Real.log (ε / c) / Real.log (1 - s)⌉ ≤ (N : Int)) :
    c * (1 - s) ^ N ≤ ε := by
  have h1s0 : (0 : ℝ) < 1 - s := by linarith
  have h1s1 : 1 - s < 1 := by linarith
  have hb : Real.log (1 - s) < 0 := Real.log_neg h1s0 h1s1
  have hbne : Real.log (1 - s) ≠ 0 := ne_of_lt hb
  have hLN : Real.log (ε / c) / Real.log (1 - s) ≤ (N : ℝ) := by
    calc Real.log (ε / c) / Real.log (1 - s)
        ≤ (⌈Real.log (ε / c) / Real.log (1 - s)⌉ : ℝ) := Int.le_ceil _
      _ ≤ (N : ℝ) := by exact_mod_cast hN
  have hmul : (N : ℝ) * Real.log (1 - s) ≤ Real.log (ε / c) := by
    have h2 : Real.log (ε / c) / Real.log (1 - s) * Real.log (1 - s)
        = Real.log (ε / c) := div_mul_cancel₀ _ hbne
    calc (N : ℝ) * Real.log (1 - s)
        ≤ Real.log (ε / c) / Real.log (1 - s) * Real.log (1 - s) :=
          mul_le_mul_of_nonpos_right hLN hb.le
      _ = Real.log (ε / c) := h2
  have hεc : 0 < ε / c := div_pos hε hc
  have hpow : (1 - s) ^ N ≤ ε / c := by
    have hexp : Real.exp (Real.log ((1 - s) ^ N)) ≤ Real.exp (Real.log (ε / c)) := by
      apply Real.exp_le_exp.mpr
      rw [Real.log_pow]
      exact hmul
    rwa [Real.exp_log (pow_pos h1s0 N), Real.exp_log hεc] at hexp
  calc c * (1 - s) ^ N ≤ c * (ε / c) := mul_le_mul_of_nonneg_left hpow hc.le
    _ = ε := by field_simp

theorem zipWith_blend_zero_left (f : ℝ → ℝ → ℝ) :
    ∀ (c : List ℝ), List.zipWith f (List.replicate c.length 0) c = c.map (f 0) := by
  intro c
  induction c with
  | nil => rfl
  | cons a c ih => simpa [List.replicate_succ] using ih

/-- C2 counterexample: take the code's smoothing factor `s = 0.15`, one
channel with initial weight 1, and `ε = 0.85`.  Then
`N = 1 ≥ ⌈log(ε/initial)/log(1-s)⌉ = 1`, yet after one tick the weight
equals `0.85 = ε` exactly, so it is not `< ε` as the claim states. -/
theorem C2_counterexample :
    ⌈Real.log ((0.85 : ℝ) / 1) / Real.log (1 - 0.15)⌉ ≤ (1 : Int)
    ∧ decayN 0.15 1 1 = 0.85
    ∧ ¬ decayN 0.15 1 1 < 0.85 := by
  have hlog : Real.log ((0.85 : ℝ) / 1) / Real.log (1 - 0.15) = 1 := by
    rw [div_one, show (1 : ℝ) - 0.15 = 0.85 by norm_num]
    apply div_self
    intro h
    rcases Real.log_eq_zero.mp h with h | h | h <;> norm_num at h
  have hdec : decayN 0.15 1 1 = 0.85 := by
    simp only [decayN, blendStep]
    rw [if_neg (by norm_num)]
    norm_num
  refine ⟨by rw [hlog]; norm_num, hdec, by rw [hdec]; exact lt_irrefl _⟩

/-- C2 (amended): after capture stop the target vector is forced to zero,
non-speaking ticks decay each current weight by `blendStep s 0`, and with
fixed smoothing factor `s ∈ (0,1)`, initial weight `initial > 0`, any
`ε > 0` and any `N ≥ ⌈log(ε/initial)/log(1-s)⌉`, after `N` ticks the
weight is `≤ ε` (the claim's strict `<` fails exactly when
`ε/initial` is an integer power of `1-s`); in particular no weight stays
permanently above any positive `ε`. -/
theorem C2_convergence_after_stop
    (st : AnimatorState) (r now rI rP : ℝ) (s c ε : ℝ) (N : Nat)
    (hs0 : 0 < s) (hs1 : s < 1) (hc : 0 < c) (hε : 0 < ε)
    (hN : ⌈Real.log (ε / c) / Real.log (1 - s)⌉ ≤ (N : Int)) :
    (∀ w ∈ (LipSyncAnimator.setSpeaking false r now st).targetWeights, w = 0)
    ∧ (st.isSpeaking = false →
        st.targetWeights = List.replicate st.currentWeights.length 0 →
        (LipSyncAnimator.update now rI rP st).currentWeights
          = st.currentWeights.map (blendStep smoothing 0))
    ∧ decayN s c N ≤ ε := by
  refine ⟨?_, ?_, ?_⟩
  · intro w hw
    simp only [LipSyncAnimator.setSpeaking, Bool.false_eq_true, if_false,
      Bool.false_and] at hw
    simp only [List.mem_map] at hw
    obtain ⟨x, _, hx⟩ := hw
    exact hx.symm
  · intro hsp htw
    simp only [LipSyncAnimator.update, hsp, Bool.false_eq_true, if_false]
    rw [htw]
    exact zipWith_blend_zero_left (blendStep smoothing) st.currentWeights
  · exact le_trans (decayN_le_pow s c hs0.le hs1.le hc.le N)
      (pow_bound_of_ceil_le s c ε N hs0 hs1 hc hε hN)

/-- Witness for C2 at concrete inputs: the initial animator state,
`s = 1/2`, initial weight 1, `ε = 1`, `N = 0`; channel 0 of the zeroed
target vector, and the one-channel decay bound. -/
theorem C2_witness :
    ((LipSyncAnimator.setSpeaking false 0 0 initAnimator).targetWeights).getD 0 0 = 0
    ∧ (LipSyncAnimator.update 0 0 0 initAnimator).currentWeights
        = initAnimator.currentWeights.map (blendStep smoothing 0)
    ∧ decayN (1/2) 1 0 ≤ 1 := by
  have h := C2_convergence_after_stop initAnimator 0 0 0 0 (1/2) 1 1 0
    (by norm_num) (by norm_num) (by norm_num) (by norm_num)
    (by norm_num [Real.log_one])
  refine ⟨?_, h.2.1 rfl rfl, h.2.2⟩
  apply h.1
  apply getD_mem_of_lt
  simp [LipSyncAnimator.setSpeaking, initAnimator]
  decide

/-! ## C3: idempotence of stopCapture / startCapture -/

/-- C3 counterexample: two `startMic` calls made while the first
`getUserMedia` request is still pending both pass the `micEnabled` guard
(the flag is only set after the `await`), so both requests are issued and
two streams are opened — against the single stream of a lone call. -/
theorem C3_counterexample :
    (runEvents initMic
      [MicEvent.startBegin, MicEvent.startBegin,
       MicEvent.resolveOk, MicEvent.resolveOk]).opened = 2
    ∧ (runEvents initMic [MicEvent.startBegin, MicEvent.resolveOk]).opened = 1 := by
  constructor <;> rfl

/-- C3 (amended): `stopMic` is idempotent — a second `stopMic` finds
`micEnabled` already false and is a no-op — and `startMic` called while a
capture is active (`micEnabled` true) returns before requesting the device;
only a `startMic` racing a still-pending `getUserMedia` request (the
counterexample) can duplicate streams. -/
theorem C3_stop_idempotent_start_active_noop (st : MicState) :
    applyEvent (applyEvent st .stop) .stop = applyEvent st .stop
    ∧ (st.micEnabled = true → applyEvent st .startBegin = st) := by
  constructor
  · by_cases h : st.micEnabled <;> simp [applyEvent, h]
  · intro h
    simp [applyEvent, h]

/-- Witness for C3 at a concrete state with the microphone active. -/
theorem C3_witness :
    applyEvent (applyEvent { initMic with micEnabled := true } .stop) .stop
      = applyEvent { initMic with micEnabled := true } .stop
    ∧ applyEvent { initMic with micEnabled := true } .startBegin
      = { initMic with micEnabled := true } :=
  ⟨(C3_stop_idempotent_start_active_noop { initMic with micEnabled := true }).1,
   (C3_stop_idempotent_start_active_noop { initMic with micEnabled := true }).2 rfl⟩

/-! ## List getD helpers -/

theorem getD_set_self (l : List ℝ) :
    ∀ (i : Nat) (x : ℝ), i < l.length → (l.set i x).getD i 0 = x := by
  induction l with
  | nil => intro i x h; simp at h
  | cons a l ih =>
    intro i x h
    cases i with
    | zero => simp
    | succ i => simpa using ih i x (by simpa using h)

theorem getD_set_ne (l : List ℝ) :
    ∀ (i j : Nat) (x : ℝ), i ≠ j → (l.set i x).getD j 0 = l.getD j 0 := by
  induction l with
  | nil => intro i j x _; simp
  | cons a l ih =>
    intro i j x h
    cases i with
    | zero =>
      cases j with
      | zero => exact absurd rfl h
      | succ j => simp
    | succ i =>
      cases j with
      | zero => simp
      | succ j => simpa using ih i j x (by omega)

theorem getD_map_zero (l : List ℝ) (j : Nat) :
    (l.map (fun _ => (0 : ℝ))).getD j 0 = 0 := by
  rcases lt_or_ge j l.length with h | h
  · rw [List.getD_eq_getElem _ _ (by simpa using h)]
    simp
  · rw [List.getD_eq_default _ _ (by simpa using h)]

theorem writeMorphsToward_getD (v t : ℝ) :
    ∀ (idxs : List Nat) (infl : List ℝ), idxs.Nodup →
      (∀ i ∈ idxs, i < infl.length) →
      ((writeMorphsToward idxs v t infl).length = infl.length
      ∧ (∀ j, j ∉ idxs → (writeMorphsToward idxs v t infl).getD j 0 = infl.getD j 0)
      ∧ ∀ i ∈ idxs, (writeMorphsToward idxs v t infl).getD i 0
          = lerp (infl.getD i 0) v t) := by
  intro idxs
  induction idxs with
  | nil =>
    intro infl _ _
    refine ⟨rfl, fun j _ => rfl, fun i hi => absurd hi (List.not_mem_nil i)⟩
  | cons i rest ih =>
    intro infl hnd hlt
    have hnotin : i ∉ rest := (List.nodup_cons.mp hnd).1
    have hndr : rest.Nodup := (List.nodup_cons.mp hnd).2
    have hw : writeMorphsToward (i :: rest) v t infl
        = writeMorphsToward rest v t (infl.set i (lerp (infl.getD i 0) v t)) := rfl
    have hlen' : ∀ i' ∈ rest, i' < (infl.set i (lerp (infl.getD i 0) v t)).length := by
      intro i' hi'
      simpa using hlt i' (by simp [hi'])
    obtain ⟨ihlen, ihout, ihin⟩ :=
      ih (infl.set i (lerp (infl.getD i 0) v t)) hndr hlen'
    refine ⟨by rw [hw, ihlen]; simp, ?_, ?_⟩
    · intro j hj
      have hji : j ≠ i := fun h => hj (by simp [h])
      have hjr : j ∉ rest := fun h => hj (by simp [h])
      rw [hw, ihout j hjr, getD_set_ne infl i j _ (fun h => hji h.symm)]
    · intro i' hi'
      rcases List.mem_cons.mp hi' with h | h
      · subst h
        rw [hw, ihout i' hnotin,
          getD_set_self infl i' _ (hlt i' (by simp))]
      · rw [hw, ihin i' h,
          getD_set_ne infl i i' _ (fun he => hnotin (he ▸ h))]

/-! ## C4: denied microphone permission fails silently -/

/-- C4: when `getUserMedia` rejects (permission denied / device
unavailable), `startMic` catches the error and returns: the begin/fail pair
leaves the capture state exactly as it was (`micEnabled` still false, no
stream, no context — the failure is observable only as the absent
side-effects); every tick then computes amplitude 0, and each collected
mouth morph slot is lerped toward 0 by the factor `1 - 0.08` per tick, so
the mouth relaxes to idle. -/
theorem C4_denied_capture_fails_silently
    (st : MicState) (h : st.micEnabled = false)
    (buf : List Nat) (gain : ℝ)
    (idxs : List Nat) (jaw : Bool) (rms : ℝ) (out : MouthOut)
    (hnd : idxs.Nodup) (hlt : ∀ i ∈ idxs, i < out.influences.length) :
    applyEvent (applyEvent st .startBegin) .resolveFail = st
    ∧ tickAmplitude st.micEnabled st.analyser.isSome gain st.smoothed buf = 0
    ∧ ∀ i ∈ idxs,
        (updateMouth false idxs jaw rms out).influences.getD i 0
          = (1 - 0.08) * (out.influences.getD i 0) := by
  refine ⟨?_, ?_, ?_⟩
  · obtain ⟨me, ms, ac, an, sn, sm, pd, op⟩ := st
    simp only at h
    subst h
    simp [applyEvent]
  · simp [tickAmplitude, h]
  · intro i hi
    have hne : idxs ≠ [] := by
      intro he
      rw [he] at hi
      exact List.not_mem_nil i hi
    have hmouth : (updateMouth false idxs jaw rms out).influences
        = writeMorphsToward idxs 0 0.08 out.influences := by
      simp [updateMouth, hne]
    obtain ⟨_, _, hin⟩ := writeMorphsToward_getD 0 0.08 idxs out.influences hnd hlt
    rw [hmouth, hin i hi]
    simp only [lerp]
    ring

/-- Witness for C4: the fresh controller state, a one-slot mouth with
influence 1, morph list `[0]`. -/
theorem C4_witness :
    applyEvent (applyEvent initMic .startBegin) .resolveFail = initMic
    ∧ tickAmplitude initMic.micEnabled initMic.analyser.isSome 3.5 initMic.smoothed [] = 0
    ∧ (updateMouth false [0] false 0 ⟨[1], 0⟩).influences.getD 0 0
        = (1 - 0.08) * ((⟨[1], 0⟩ : MouthOut).influences.getD 0 0) := by
  have h := C4_denied_capture_fails_silently initMic rfl [] 3.5 [0] false 0 ⟨[1], 0⟩
    (by simp) (by simp)
  exact ⟨h.1, h.2.1, h.2.2 0 (by simp)⟩

/-! ## C5: rig tier resolution and the no-rig no-op -/

/-- C5: the derived Tier is `FullViseme` as soon as the resolver collected
at least one canonical or heuristic morph channel, else `JawBoneFallback`
when a jaw bone was found, else `None`; and for a rig with neither, a tick
leaves every mouth output (morph influence slots and jaw rotation)
untouched — `updateMouth` is the identity, with no error path. -/
theorem C5_tier_resolution (r : Rig) :
    (morphs r ≠ [] → tier r = Tier.FullViseme)
    ∧ (morphs r = [] → (findJaw r).isSome → tier r = Tier.JawBoneFallback)
    ∧ (morphs r = [] → findJaw r = none →
        tier r = Tier.None
        ∧ ∀ (micOn : Bool) (rms : ℝ) (out : MouthOut),
            updateMouth micOn ((morphs r).map Prod.snd) (findJaw r).isSome rms out
              = out) := by
  refine ⟨?_, ?_, ?_⟩
  · intro hm
    simp [tier, hm]
  · intro hm hj
    simp [tier, hm, hj]
  · intro hm hj
    constructor
    · simp [tier, hm, hj]
    · intro micOn rms out
      rw [hm, hj]
      cases micOn <;> simp [updateMouth]

def rigFull : Rig := ⟨[⟨[(("mouthOpen"), 0)]⟩], []⟩

def rigJawOnly : Rig := ⟨[], [("LowerJaw")]⟩

def rigBare : Rig := ⟨[], []⟩

/-- Witness for C5 on three concrete rigs: one exposing a canonical mouth
morph, one exposing only a bone whose name contains a jaw substring, and
one exposing neither. -/
theorem C5_witness :
    tier rigFull = Tier.FullViseme
    ∧ tier rigJawOnly = Tier.JawBoneFallback
    ∧ tier rigBare = Tier.None
    ∧ updateMouth false ((morphs rigBare).map Prod.snd)
        (findJaw rigBare).isSome 0 ⟨[], 0⟩ = ⟨[], 0⟩ :=
  ⟨(C5_tier_resolution rigFull).1 (by decide),
   (C5_tier_resolution rigJawOnly).2.1 (by decide) (by decide),
   ((C5_tier_resolution rigBare).2.2 (by decide) (by decide)).1,
   ((C5_tier_resolution rigBare).2.2 (by decide) (by decide)).2 false 0 ⟨[], 0⟩⟩

/-! ## C6: the scheduler's per-tick target vector -/

theorem speech_patterns_wf :
    ∀ p ∈ SPEECH_PATTERNS, ∀ s ∈ p, s.1 < 15 ∧ 0 < s.2 := by decide

theorem currentPattern_mem (st : AnimatorState)
    (h : st.stepIndex < (currentPattern st).length) :
    currentPattern st ∈ SPEECH_PATTERNS := by
  by_cases hp : st.patternIndex < SPEECH_PATTERNS.length
  · unfold currentPattern
    rw [List.getD_eq_getElem _ _ hp]
    exact List.getElem_mem hp
  · exfalso
    unfold currentPattern at h
    rw [List.getD_eq_default _ _ (le_of_not_lt hp)] at h
    simp at h

theorem schedStep_valid (st : AnimatorState)
    (h : st.stepIndex < (currentPattern st).length) :
    (schedStep st).1 < 15 ∧ 0 < (schedStep st).2 := by
  have hmem : schedStep st ∈ currentPattern st := by
    unfold schedStep
    rw [List.getD_eq_getElem _ _ h]
    exact List.getElem_mem h
  exact speech_patterns_wf (currentPattern st) (currentPattern_mem st h) _ hmem

theorem update_targetWeights (st : AnimatorState) (now rI rP : ℝ)
    (hsp : st.isSpeaking = true) :
    (LipSyncAnimator.update now rI rP st).targetWeights = schedTargets now rI st := by
  simp only [LipSyncAnimator.update, hsp, if_true]
  unfold updateSpeaking
  split
  · split <;> rfl
  · rfl

theorem schedTargets_length (st : AnimatorState) (now rI : ℝ) :
    (schedTargets now rI st).length = st.targetWeights.length := by
  unfold schedTargets
  split <;> simp

/-- C6: on a tick taken while Speaking (with a valid step index, a clock
at or past the step start, and the target vector at its invariant length
15), the written target vector is: zero everywhere except that the current
step's viseme channel holds
`intensity = sin(progress·π)·(0.6 + rI·0.35)` with
`progress = min(elapsed/duration, 1) ∈ [0,1]`, and — exactly when the
step's viseme is neither silence (0) nor `viseme_aa` (10) — channel 10
additionally holds `intensity · 0.2`. -/
theorem C6_scheduler_target_vector (st : AnimatorState) (now rI rP : ℝ)
    (hsp : st.isSpeaking = true)
    (hlen : st.targetWeights.length = 15)
    (hstep : st.stepIndex < (currentPattern st).length)
    (hnow : st.stepStartTime ≤ now) :
    0 ≤ schedProgress now st ∧ schedProgress now st ≤ 1
    ∧ (LipSyncAnimator.update now rI rP st).targetWeights.getD (schedStep st).1 0
        = schedIntensity now rI st
    ∧ ((schedStep st).1 ≠ 0 → (schedStep st).1 ≠ 10 →
        (LipSyncAnimator.update now rI rP st).targetWeights.getD 10 0
          = schedIntensity now rI st * 0.2)
    ∧ (∀ j, j ≠ (schedStep st).1 → j ≠ 10 →
        (LipSyncAnimator.update now rI rP st).targetWeights.getD j 0 = 0)
    ∧ (((schedStep st).1 = 0 ∨ (schedStep st).1 = 10) →
        ∀ j, j ≠ (schedStep st).1 →
          (LipSyncAnimator.update now rI rP st).targetWeights.getD j 0 = 0) := by
  obtain ⟨hv15, hd0⟩ := schedStep_valid st hstep
  have hdr : (0 : ℝ) < ((schedStep st).2 : ℝ) := by exact_mod_cast hd0
  have hprog0 : 0 ≤ schedProgress now st := by
    unfold schedProgress
    exact le_min (div_nonneg (by linarith) hdr.le) zero_le_one
  have hprog1 : schedProgress now st ≤ 1 := min_le_right _ _
  have htw := update_targetWeights st now rI rP hsp
  have hlen0 : (st.targetWeights.map (fun _ => (0 : ℝ))).length = 15 := by
    simpa using hlen
  have hlenset : ((st.targetWeights.map (fun _ => (0 : ℝ))).set (schedStep st).1
      (schedIntensity now rI st)).length = 15 := by
    simpa using hlen0
  refine ⟨hprog0, hprog1, ?_, ?_, ?_, ?_⟩
  · rw [htw]
    unfold schedTargets
    split
    · rename_i hcase
      rw [getD_set_ne _ 10 (schedStep st).1 _ (fun h => hcase.2 h.symm)]
      exact getD_set_self _ _ _ (by rw [hlen0]; exact hv15)
    · exact getD_set_self _ _ _ (by rw [hlen0]; exact hv15)
  · intro h0 h10
    rw [htw]
    unfold schedTargets
    rw [if_pos ⟨h0, h10⟩]
    exact getD_set_self _ _ _ (by rw [hlenset]; norm_num)
  · intro j hjv hj10
    rw [htw]
    unfold schedTargets
    split
    · rw [getD_set_ne _ 10 j _ (fun h => hj10 h.symm),
        getD_set_ne _ _ j _ (fun h => hjv h.symm)]
      exact getD_map_zero _ _
    · rw [getD_set_ne _ _ j _ (fun h => hjv h.symm)]
      exact getD_map_zero _ _
  · intro hcase j hjv
    rw [htw]
    unfold schedTargets
    rw [if_neg (by
      rcases hcase with h | h
      · exact fun hc => hc.1 h
      · exact fun hc => hc.2 h)]
    rw [getD_set_ne _ _ j _ (fun h => hjv h.symm)]
    exact getD_map_zero _ _

/-- Witness for C6: the initial animator switched to speaking, ticked at
time 0 (pattern 0, step 0: viseme 10 with duration 120); channel 10 gets
the intensity, channels 3 and 0 stay zero. -/
theorem C6_witness :
    0 ≤ schedProgress 0 { initAnimator with isSpeaking := true }
    ∧ schedProgress 0 { initAnimator with isSpeaking := true } ≤ 1
    ∧ (LipSyncAnimator.update 0 (1/2) 0 { initAnimator with isSpeaking := true
        }).targetWeights.getD
          (schedStep { initAnimator with isSpeaking := true }).1 0
        = schedIntensity 0 (1/2) { initAnimator with isSpeaking := true }
    ∧ (LipSyncAnimator.update 0 (1/2) 0 { initAnimator with isSpeaking := true
        }).targetWeights.getD 3 0 = 0
    ∧ (LipSyncAnimator.update 0 (1/2) 0 { initAnimator with isSpeaking := true
        }).targetWeights.getD 0 0 = 0 := by
  have h := C6_scheduler_target_vector { initAnimator with isSpeaking := true } 0 (1/2) 0
    rfl (by rfl) (by decide) (by norm_num [initAnimator])
  have hv : (schedStep { initAnimator with isSpeaking := true }).1 = 10 := by decide
  refine ⟨h.1, h.2.1, h.2.2.1, ?_, ?_⟩
  · exact h.2.2.2.2.1 3 (by rw [hv]; decide) (by decide)
  · exact h.2.2.2.2.2 (Or.inr hv) 0 (by rw [hv]; decide)

/-! ## C7: step advancement and pattern re-randomization -/

theorem randIndex_lt (r : ℝ) (hr0 : 0 ≤ r) (hr1 : r < 1) :
    randIndex r < SPEECH_PATTERNS.length := by
  unfold randIndex
  have hlen : ((SPEECH_PATTERNS.length : Nat) : ℝ) = 5 := by norm_num [SPEECH_PATTERNS]
  have hup : r * (SPEECH_PATTERNS.length : ℝ) < 5 := by
    rw [hlen]
    nlinarith
  have hfl : ⌊r * (SPEECH_PATTERNS.length : ℝ)⌋ < 5 := by
    have := Int.floor_lt.mpr (by exact_mod_cast hup)
    exact_mod_cast this
  have hfl0 : 0 ≤ ⌊r * (SPEECH_PATTERNS.length : ℝ)⌋ :=
    Int.floor_nonneg.mpr (by positivity)
  have : SPEECH_PATTERNS.length = 5 := by rfl
  omega

/-- C7: on a speaking tick with `elapsed ≥ duration`, the step-start
timestamp is reset to `now` and the scheduler advances: if the incremented
step index passes the end of the pattern it picks pattern `randIndex rP`
(always `< librarySize = 5` for a draw `rP ∈ [0,1)`) and resets the step
index to 0, otherwise it just increments the step index and keeps the
pattern. -/
theorem C7_step_advancement (st : AnimatorState) (now rI rP : ℝ)
    (hsp : st.isSpeaking = true)
    (hadv : ((schedStep st).2 : ℝ) ≤ now - st.stepStartTime)
    (hr0 : 0 ≤ rP) (hr1 : rP < 1) :
    (LipSyncAnimator.update now rI rP st).stepStartTime = now
    ∧ ((currentPattern st).length ≤ st.stepIndex + 1 →
        (LipSyncAnimator.update now rI rP st).stepIndex = 0
        ∧ (LipSyncAnimator.update now rI rP st).patternIndex = randIndex rP)
    ∧ (st.stepIndex + 1 < (currentPattern st).length →
        (LipSyncAnimator.update now rI rP st).stepIndex = st.stepIndex + 1
        ∧ (LipSyncAnimator.update now rI rP st).patternIndex = st.patternIndex)
    ∧ randIndex rP < SPEECH_PATTERNS.length := by
  have hsst : (LipSyncAnimator.update now rI rP st).stepStartTime
      = (updateSpeaking now rI rP st).stepStartTime := by
    simp only [LipSyncAnimator.update, hsp, if_true]
  have hsi : (LipSyncAnimator.update now rI rP st).stepIndex
      = (updateSpeaking now rI rP st).stepIndex := by
    simp only [LipSyncAnimator.update, hsp, if_true]
  have hpi : (LipSyncAnimator.update now rI rP st).patternIndex
      = (updateSpeaking now rI rP st).patternIndex := by
    simp only [LipSyncAnimator.update, hsp, if_true]
  refine ⟨?_, ?_, ?_, randIndex_lt rP hr0 hr1⟩
  · rw [hsst]
    unfold updateSpeaking
    rw [if_pos hadv]
    split <;> rfl
  · intro hend
    rw [hsi, hpi]
    unfold updateSpeaking
    rw [if_pos hadv, if_pos hend]
    exact ⟨rfl, rfl⟩
  · intro hlt
    rw [hsi, hpi]
    unfold updateSpeaking
    rw [if_pos hadv, if_neg (not_le.mpr hlt)]
    exact ⟨rfl, rfl⟩

/-- Witness for C7: the speaking initial animator ticked at `now = 120`,
exactly the duration of pattern 0's first step, with draw `rP = 1/2`: the
step advances from 0 to 1 inside pattern 0 and the step start resets. -/
theorem C7_witness :
    (LipSyncAnimator.update 120 0 (1/2) { initAnimator with isSpeaking := true
      }).stepStartTime = 120
    ∧ (LipSyncAnimator.update 120 0 (1/2) { initAnimator with isSpeaking := true
        }).stepIndex = ({ initAnimator with isSpeaking := true } : AnimatorState).stepIndex + 1
    ∧ (LipSyncAnimator.update 120 0 (1/2) { initAnimator with isSpeaking := true
        }).patternIndex = ({ initAnimator with isSpeaking := true } : AnimatorState).patternIndex
    ∧ randIndex (1/2) < SPEECH_PATTERNS.length := by
  have hadv : ((schedStep { initAnimator with isSpeaking := true }).2 : ℝ)
      ≤ 120 - ({ initAnimator with isSpeaking := true } : AnimatorState).stepStartTime := by
    have hs : schedStep { initAnimator with isSpeaking := true } = (10, 120) := by decide
    rw [hs]
    norm_num [initAnimator]
  have h := C7_step_advancement { initAnimator with isSpeaking := true } 120 0 (1/2)
    rfl hadv (by norm_num) (by norm_num)
  have hlt : ({ initAnimator with isSpeaking := true } : AnimatorState).stepIndex + 1 <
      (currentPattern { initAnimator with isSpeaking := true }).length := by decide
  exact ⟨h.1, (h.2.2.1 hlt).1, (h.2.2.1 hlt).2, h.2.2.2⟩

/-! ## C8: amplitude scaling and clamping -/

theorem computeRMS_nonneg (buf : List Nat) : 0 ≤ computeRMS buf :=
  Real.sqrt_nonneg _

/-- C8 (amended): each capture tick computes
`amplitude = min(1, smoothed · gain · 3.5)` from the exponentially
smoothed RMS; the smoothed value stays nonnegative, and for every buffer
and every gain `≥ 0` the amplitude lies in `[0,1]` and coincides with the
two-sided clamp of the claim's formula.  (For a negative gain the code has
no lower clamp — see the counterexample.) -/
theorem C8_amplitude_in_unit_interval (buf : List Nat) (smoothed gain : ℝ)
    (hsm : 0 ≤ smoothed) (hg : 0 ≤ gain) :
    0 ≤ computeRMS buf
    ∧ 0 ≤ smoothStep smoothed (computeRMS buf)
    ∧ 0 ≤ scaleAmplitude gain (smoothStep smoothed (computeRMS buf))
    ∧ scaleAmplitude gain (smoothStep smoothed (computeRMS buf)) ≤ 1
    ∧ scaleAmplitude gain (smoothStep smoothed (computeRMS buf))
        = max 0 (min 1 (smoothStep smoothed (computeRMS buf) * gain * 3.5)) := by
  have hrms := computeRMS_nonneg buf
  have hss : 0 ≤ smoothStep smoothed (computeRMS buf) := by
    unfold smoothStep
    have hm : (0 : ℝ) ≤ micSmoothing := by norm_num [micSmoothing]
    have hm1 : micSmoothing ≤ 1 := by norm_num [micSmoothing]
    nlinarith [mul_nonneg hsm (sub_nonneg.2 hm1), mul_nonneg hrms hm]
  have hprod : 0 ≤ smoothStep smoothed (computeRMS buf) * gain * 3.5 := by
    positivity
  refine ⟨hrms, hss, ?_, ?_, ?_⟩
  · unfold scaleAmplitude
    exact le_min zero_le_one hprod
  · exact min_le_left _ _
  · unfold scaleAmplitude
    rw [max_eq_right (le_min zero_le_one hprod)]

/-- Witness for C8: an empty buffer, smoothed value 0, the default gain. -/
theorem C8_witness :
    0 ≤ computeRMS []
    ∧ 0 ≤ smoothStep 0 (computeRMS [])
    ∧ 0 ≤ scaleAmplitude 3.5 (smoothStep 0 (computeRMS []))
    ∧ scaleAmplitude 3.5 (smoothStep 0 (computeRMS [])) ≤ 1
    ∧ scaleAmplitude 3.5 (smoothStep 0 (computeRMS []))
        = max 0 (min 1 (smoothStep 0 (computeRMS []) * 3.5 * 3.5)) :=
  C8_amplitude_in_unit_interval [] 0 3.5 (by norm_num) (by norm_num)

/-- C8 counterexample: the code computes `min(1, smoothed·gain·3.5)` with
no lower clamp.  With a loud buffer (four zero bytes, RMS 1) and gain
`-1`, the amplitude after one smoothing step is `-0.42 < 0`, so the output
is not in `[0,1]` for *every* gain value. -/
theorem C8_counterexample :
    scaleAmplitude (-1) (smoothStep 0 (computeRMS (List.replicate 4 0))) < 0 := by
  have hr : computeRMS (List.replicate 4 0) = 1 := by
    unfold computeRMS
    rw [List.map_replicate, List.sum_replicate]
    have hv : sampleV 0 * sampleV 0 = 1 := by
      unfold sampleV
      norm_num
    rw [hv]
    norm_num
  have hs : smoothStep 0 1 = 0.12 := by
    unfold smoothStep
    norm_num [micSmoothing]
  rw [hr, hs]
  unfold scaleAmplitude
  have : (0.12 : ℝ) * (-1) * 3.5 = -0.42 := by norm_num
  rw [this]
  calc min 1 (-0.42 : ℝ) ≤ -0.42 := min_le_right _ _
    _ < 0 := by norm_num

/-! ## C9: RMS extremes -/

theorem sampleV_mid_sq : sampleV 128 * sampleV 128 = 0 := by
  unfold sampleV
  norm_num

theorem computeRMS_mid (n : Nat) : computeRMS (List.replicate n 128) = 0 := by
  unfold computeRMS
  rw [List.map_replicate, List.sum_replicate, sampleV_mid_sq]
  simp

theorem altBuf_succ (n : Nat) : altBuf (n + 1) = 0 :: 255 :: altBuf n := by
  simp [altBuf, List.replicate_succ]

theorem altBuf_sq_sum (n : Nat) :
    ((altBuf n).map (fun b => sampleV b * sampleV b)).sum
      = n * (1 + (127 / 128) ^ 2) := by
  induction n with
  | zero => simp [altBuf]
  | succ n ih =>
    rw [altBuf_succ]
    simp only [List.map_cons, List.sum_cons]
    rw [ih]
    have h0 : sampleV 0 * sampleV 0 = 1 := by
      unfold sampleV
      norm_num
    have h255 : sampleV 255 * sampleV 255 = (127 / 128) ^ 2 := by
      unfold sampleV
      norm_num
    rw [h0, h255]
    push_cast
    ring

theorem altBuf_length (n : Nat) : (altBuf n).length = 2 * n := by
  induction n with
  | zero => rfl
  | succ n ih =>
    rw [altBuf_succ]
    simp only [List.length_cons, ih]
    omega

theorem computeRMS_alt (n : Nat) (hn : 1 ≤ n) :
    computeRMS (altBuf n) = Real.sqrt (32513 / 32768) := by
  unfold computeRMS
  rw [altBuf_sq_sum, altBuf_length]
  congr 1
  have hne : (n : ℝ) ≠ 0 := Nat.cast_ne_zero.mpr (by omega)
  push_cast
  field_simp
  ring

/-- C9: the RMS computation centres byte samples around 128, so a buffer
of all-mid-value samples yields exactly 0, while a maximal-swing
alternating 0/255 buffer yields an RMS strictly between 0.99 and 1 —
approaching 1 — before any gain scaling. -/
theorem C9_rms_extremes :
    (∀ n, computeRMS (List.replicate n 128) = 0)
    ∧ ∀ n, 1 ≤ n →
        99 / 100 < computeRMS (altBuf n) ∧ computeRMS (altBuf n) < 1 := by
  refine ⟨computeRMS_mid, ?_⟩
  intro n hn
  rw [computeRMS_alt n hn]
  constructor
  · exact (Real.lt_sqrt (by norm_num)).mpr (by norm_num)
  · exact (Real.sqrt_lt' (by norm_num)).mpr (by norm_num)

/-- Witness for C9 at the two-sample alternating buffer (n = 1). -/
theorem C9_witness :
    99 / 100 < computeRMS (altBuf 1) ∧ computeRMS (altBuf 1) < 1 :=
  C9_rms_extremes.2 1 (by norm_num)

/-! ## C10: setSpeaking(true) while already speaking -/

/-- C10: calling `setSpeaking(true)` while the animator is already
speaking is the identity on the whole state — the pattern, step index and
step-start timestamp are untouched and the targets are not zeroed — while
the same call on a non-speaking animator re-randomizes the pattern and
resets the step index to 0 and the step-start time to `now`. -/
theorem C10_setSpeaking_true_frame (st st2 : AnimatorState) (r now : ℝ)
    (h : st.isSpeaking = true) (h2 : st2.isSpeaking = false) :
    LipSyncAnimator.setSpeaking true r now st = st
    ∧ (LipSyncAnimator.setSpeaking true r now st2).isSpeaking = true
    ∧ (LipSyncAnimator.setSpeaking true r now st2).patternIndex = randIndex r
    ∧ (LipSyncAnimator.setSpeaking true r now st2).stepIndex = 0
    ∧ (LipSyncAnimator.setSpeaking true r now st2).stepStartTime = now
    ∧ (LipSyncAnimator.setSpeaking true r now st2).targetWeights = st2.targetWeights
    ∧ (LipSyncAnimator.setSpeaking true r now st2).currentWeights = st2.currentWeights := by
  constructor
  · obtain ⟨spk, pi, si, sst, tw, cw⟩ := st
    simp only at h
    subst h
    simp [LipSyncAnimator.setSpeaking]
  · refine ⟨?_, ?_, ?_, ?_, ?_, ?_⟩ <;>
      simp [LipSyncAnimator.setSpeaking, h2]

/-- Witness for C10: a speaking and a non-speaking copy of the initial
animator. -/
theorem C10_witness :
    LipSyncAnimator.setSpeaking true (1/2) 7 { initAnimator with isSpeaking := true }
      = { initAnimator with isSpeaking := true }
    ∧ (LipSyncAnimator.setSpeaking true (1/2) 7 initAnimator).isSpeaking = true
    ∧ (LipSyncAnimator.setSpeaking true (1/2) 7 initAnimator).patternIndex
        = randIndex (1/2)
    ∧ (LipSyncAnimator.setSpeaking true (1/2) 7 initAnimator).stepIndex = 0
    ∧ (LipSyncAnimator.setSpeaking true (1/2) 7 initAnimator).stepStartTime = 7
    ∧ (LipSyncAnimator.setSpeaking true (1/2) 7 initAnimator).targetWeights
        = initAnimator.targetWeights
    ∧ (LipSyncAnimator.setSpeaking true (1/2) 7 initAnimator).currentWeights
        = initAnimator.currentWeights :=
  C10_setSpeaking_true_frame { initAnimator with isSpeaking := true } initAnimator
    (1/2) 7 rfl rfl
